import Mathlib

/-!
Verification of the door_status inference engine
(`custom_components/door_status/sensor.py`).

The Python code is shallowly embedded as executable Lean definitions:

* percentages, timestamps and thresholds are rationals (`ℚ`) — the Python
  values are floats but every claim-relevant computation stays exact here;
* pixel colors are integer triples; an image is a width/height pair together
  with a total pixel lookup `pix y x`, mirroring `img_array[y, x]`;
* `_get_line_pixels` is embedded with its two while-loops as fuel-based
  recursions; the fuel is the exact distance along the major axis, which the
  length theorems prove is exactly the number of iterations the Python
  `while x != x1` / `while y != y1` loop performs (the sign `sx`/`sy` is
  computed so that the running coordinate steps toward the target, so the
  loop stops precisely when the fuel runs out);
* the floating-point error term `err = dx / 2.0` is embedded doubled as the
  integer `e = 2 * err`; for integer `dx`, `dy` all Python intermediate
  values are multiples of one half and are exact in double precision, so
  `err < 0 ↔ e < 0` at every step;
* Python truthiness of `self._last_percent or current_percent` (where `0.0`
  is falsy) is embedded by `pyOr`;
* the mutable sensor object is replaced by explicit state passing over
  `EngineState`, whose fields are exactly the instance variables the update
  path reads and writes.
-/

/-- An RGB pixel; channels are unconstrained integers (`uint8` in practice). -/
def Pixel : Type := ℤ × ℤ × ℤ

/-- An RGB color bound used in the color-range filter. -/
def Color : Type := ℤ × ℤ × ℤ

instance : DecidableEq Pixel := by unfold Pixel; infer_instance

/-- A decoded RGB image: `pix y x` is the pixel at row `y`, column `x`,
mirroring the numpy indexing `img_array[y, x]`. -/
structure Image where
  width : ℕ
  height : ℕ
  pix : ℕ → ℕ → Pixel

/-- The major-axis-x loop of `_get_line_pixels` (`while x != x1`), sensor.py
lines 409-418, with the error term doubled to stay in `ℤ`.  One unit of fuel
corresponds to one loop iteration; the loop also stops early if `x = x1`,
exactly as the Python `while` condition does.  Returns the collected pixels
and the final `(x, y)` position. -/
def lineLoopX (img : Image) (w h x1 dx dy sx sy : ℤ) :
    ℕ → ℤ → ℤ → ℤ → List Pixel × ℤ × ℤ
  | 0, x, y, _ => ([], x, y)
  | Nat.succ n, x, y, e =>
    if x = x1 then ([], x, y)
    else
      let px : List Pixel :=
        if 0 ≤ y ∧ y < h ∧ 0 ≤ x ∧ x < w then [img.pix y.toNat x.toNat] else []
      let e2 := e - 2 * dy
      let y2 := if e2 < 0 then y + sy else y
      let e3 := if e2 < 0 then e2 + 2 * dx else e2
      let r := lineLoopX img w h x1 dx dy sx sy n (x + sx) y2 e3
      (px ++ r.1, r.2)

/-- The major-axis-y loop of `_get_line_pixels` (`while y != y1`), sensor.py
lines 420-428, with the error term doubled. -/
def lineLoopY (img : Image) (w h y1 dx dy sx sy : ℤ) :
    ℕ → ℤ → ℤ → ℤ → List Pixel × ℤ × ℤ
  | 0, x, y, _ => ([], x, y)
  | Nat.succ n, x, y, e =>
    if y = y1 then ([], x, y)
    else
      let px : List Pixel :=
        if 0 ≤ y ∧ y < h ∧ 0 ≤ x ∧ x < w then [img.pix y.toNat x.toNat] else []
      let e2 := e - 2 * dx
      let x2 := if e2 < 0 then x + sx else x
      let e3 := if e2 < 0 then e2 + 2 * dy else e2
      let r := lineLoopY img w h y1 dx dy sx sy n x2 (y + sy) e3
      (px ++ r.1, r.2)

/-- `_get_line_pixels(img_array, point_a, point_b)`, sensor.py lines 386-433:
clamp both endpoints into bounds, traverse with Bresenham along the major
axis, then append the final position's pixel if in bounds. -/
def getLinePixels (img : Image) (a b : ℤ × ℤ) : List Pixel :=
  if img.height = 0 ∨ img.width = 0 then []
  else
    let w : ℤ := img.width
    let h : ℤ := img.height
    let x0 := max 0 (min a.1 (w - 1))
    let y0 := max 0 (min a.2 (h - 1))
    let x1 := max 0 (min b.1 (w - 1))
    let y1 := max 0 (min b.2 (h - 1))
    let dx := |x1 - x0|
    let dy := |y1 - y0|
    let sx : ℤ := if x0 > x1 then -1 else 1
    let sy : ℤ := if y0 > y1 then -1 else 1
    let r :=
      if dx > dy then lineLoopX img w h x1 dx dy sx sy dx.toNat x0 y0 dx
      else lineLoopY img w h y1 dx dy sx sy dy.toNat x0 y0 dy
    r.1 ++
      (if 0 ≤ r.2.2 ∧ r.2.2 < h ∧ 0 ≤ r.2.1 ∧ r.2.1 < w
       then [img.pix r.2.2.toNat r.2.1.toNat] else [])

/-- `(pixels >= self._min_color) & (pixels <= self._max_color)` reduced with
`np.all(..., axis=1)`: every channel of the pixel lies within the inclusive
bounds. -/
def pixInRange (p : Pixel) (minC maxC : Color) : Bool :=
  decide (minC.1 ≤ p.1 ∧ p.1 ≤ maxC.1 ∧ minC.2.1 ≤ p.2.1 ∧ p.2.1 ≤ maxC.2.1 ∧
          minC.2.2 ≤ p.2.2 ∧ p.2.2 ≤ maxC.2.2)

/-- `match_percent = (np.sum(in_range) / len(pixels)) * 100`, sensor.py
lines 248-252. -/
def matchPercent (pixels : List Pixel) (minC maxC : Color) : ℚ :=
  ((pixels.countP (fun p => pixInRange p minC maxC) : ℚ) / (pixels.length : ℚ)) * 100

/-- Python's `round(x, 1)` (banker's rounding, half to even) on exact
rationals: round `10 * q` half-to-even, divide by ten. -/
def pyRound1 (q : ℚ) : ℚ :=
  let n := 10 * q
  let f := ⌊n⌋
  let r := n - (f : ℚ)
  let m : ℤ :=
    if r < 1 / 2 then f
    else if r > 1 / 2 then f + 1
    else if Even f then f else f + 1
  (m : ℚ) / 10

/-- The discrete door states (`STATE_*` in const.py). -/
inductive DoorState where
  | isOpen | closed | opening | closing | partiallyOpen | unknown
deriving DecidableEq, Repr

/-- The predicted next action (`NEXT_ACTION_*` in const.py). -/
inductive NextAction where
  | doOpen | doClose | unknown
deriving DecidableEq, Repr

/-- The numeric configuration read by the update path. -/
structure Config where
  change_threshold : ℚ
  transition_threshold : ℚ
  open_position : ℚ
  closed_position : ℚ
  state_timeout : ℚ
deriving DecidableEq

/-- The instance variables of `DoorStatusSensor` that the update path reads
and writes (`percent_value` is the code's `self._percent_value`, the most
recent percentage; timestamps are rational seconds). -/
structure EngineState where
  percent_value : Option ℚ
  door_state : DoorState
  next_action : NextAction
  last_percent : Option ℚ
  state_stable_since : ℚ
  active_mode : Bool
  state_history : List ℚ
  available : Bool
deriving DecidableEq, Repr

/-- Python's `o or d` for an optional float `o`: `None` and `0.0` are falsy
and yield `d`. -/
def pyOr (o : Option ℚ) (d : ℚ) : ℚ :=
  match o with
  | none => d
  | some v => if v = 0 then d else v

/-- `_update_door_state`, sensor.py lines 327-366: classify the current
percentage into a door state and next action.  The comparison of
`self._door_state` against `STATE_OPENING`/`STATE_CLOSING` on lines 355-358
happens after `self._door_state` was just set to `STATE_PARTIALLY_OPEN` and
is embedded as written (both branches are dead). -/
def updateDoorState (cfg : Config) (s : EngineState) : EngineState :=
  match s.percent_value with
  | none => { s with door_state := DoorState.unknown, next_action := NextAction.unknown }
  | some pv =>
    let lp : Option ℚ := if s.last_percent = none then some pv else s.last_percent
    let change := pv - pyOr lp pv
    let moving := |change| ≥ cfg.change_threshold
    if pv ≤ cfg.open_position + cfg.transition_threshold then
      { s with last_percent := lp, door_state := DoorState.isOpen,
               next_action := NextAction.doClose }
    else if pv ≥ cfg.closed_position - cfg.transition_threshold then
      { s with last_percent := lp, door_state := DoorState.closed,
               next_action := NextAction.doOpen }
    else if moving then
      if change > 0 then
        { s with last_percent := lp, door_state := DoorState.closing,
                 next_action := NextAction.doOpen }
      else
        { s with last_percent := lp, door_state := DoorState.opening,
                 next_action := NextAction.doClose }
    else if pv > cfg.open_position + cfg.transition_threshold then
      let s2 := { s with last_percent := lp, door_state := DoorState.partiallyOpen }
      if s2.door_state = DoorState.opening then
        { s2 with next_action := NextAction.doClose }
      else if s2.door_state = DoorState.closing then
        { s2 with next_action := NextAction.doOpen }
      else
        { s2 with next_action :=
            if pv > (cfg.closed_position + cfg.open_position) / 2
            then NextAction.doOpen else NextAction.doClose }
    else
      { s with last_percent := lp, door_state := DoorState.unknown,
               next_action := NextAction.unknown }

/-- History append with bounded length, sensor.py lines 255-258
(`self._max_history_length = 20`; `pop(0)` past capacity). -/
def pushHistory (p : ℚ) (s : EngineState) : EngineState :=
  { s with state_history :=
      if (s.state_history ++ [p]).length > 20
      then (s.state_history ++ [p]).tail else s.state_history ++ [p] }

/-- Active-mode hysteresis, sensor.py lines 261-271: compare the new
percentage against `self._last_percent` (as stored at this point, i.e.
before the rotation on line 274). -/
def activityStep (cfg : Config) (p : ℚ) (s : EngineState) : EngineState :=
  match s.last_percent with
  | some lp =>
    if |p - lp| ≥ cfg.change_threshold then
      (if ¬ s.active_mode then { s with active_mode := true } else s)
    else if s.active_mode then { s with active_mode := false } else s
  | none => s

/-- Rotation of the stored percentages, sensor.py lines 274-277. -/
def rotateState (p : ℚ) (s : EngineState) : EngineState :=
  { s with last_percent := s.percent_value, percent_value := some p,
           available := true }

/-- The `state_changed` decision, sensor.py lines 280-290, evaluated on the
post-rotation state: forced updates, an `unknown` label or a missing
percentage always recompute; otherwise the percentage delta against the
(possibly falsy) stored `last_percent` is compared with the transition
threshold, or the state timeout must have elapsed. -/
def stateChangedGate (cfg : Config) (force : Bool) (now p : ℚ) (s : EngineState) : Bool :=
  if force || decide (s.door_state = DoorState.unknown)
           || decide (s.percent_value = none) then true
  else
    decide (|p - pyOr s.last_percent p| ≥ cfg.transition_threshold) ||
    decide (now - s.state_stable_since > cfg.state_timeout)

/-- The per-sample part of `_async_update`, sensor.py lines 255-316, from the
point where `current_percent` has been computed: history append, active-mode
hysteresis, rotation of `last_percent`/`percent_value`, the `state_changed`
gate, classification and the event decision.  Returns the new state and
whether the `EVENT_DOOR_STATUS_UPDATED` event was fired (lines 292-309: the
event fires when `force_update` is set or the label differs from its value
before classification). -/
def engineStep (cfg : Config) (force : Bool) (now p : ℚ) (s : EngineState) :
    EngineState × Bool :=
  let s3 := rotateState p (activityStep cfg p (pushHistory p s))
  if stateChangedGate cfg force now p s3 then
    let s4 := { updateDoorState cfg s3 with state_stable_since := now }
    (s4, force || decide (s4.door_state ≠ s3.door_state))
  else (s3, false)

/-- `_async_update` from the sampling stage on, sensor.py lines 204 and
237-316: `self._available = False` happens first; an empty pixel sample
returns early (the `len(pixels) == 0` check) touching nothing else;
otherwise the match percentage is computed, rounded to one decimal, and fed
to the engine step. -/
def asyncUpdate (cfg : Config) (force : Bool) (now : ℚ) (pixels : List Pixel)
    (minC maxC : Color) (s : EngineState) : EngineState × Bool :=
  let s0 := { s with available := false }
  if pixels.length = 0 then (s0, false)
  else engineStep cfg force now (pyRound1 (matchPercent pixels minC maxC)) s0

/-- Iterate `engineStep` over a list of `(force, now, percent)` inputs,
returning the state after every step. -/
def runEngine (cfg : Config) : EngineState → List (Bool × ℚ × ℚ) → List EngineState
  | _, [] => []
  | s, (f, now, p) :: rest =>
    let s' := (engineStep cfg f now p s).1
    s' :: runEngine cfg s' rest

/-- The freshly constructed state, `__init__` lines 86-96, with both
construction timestamps taken as `t0`. -/
def initState (t0 : ℚ) : EngineState :=
  { percent_value := none, door_state := DoorState.unknown,
    next_action := NextAction.unknown, last_percent := none,
    state_stable_since := t0, active_mode := false,
    state_history := [], available := false }

/-- The configuration of the golden-path scenario: defaults except a long
state timeout so the timeout trigger stays out of the way. -/
def cfgGolden : Config :=
  { change_threshold := 10, transition_threshold := 5, open_position := 10,
    closed_position := 90, state_timeout := 1000 }

/-- A configuration with a wider activity threshold, used to probe the
activity-detection delta. -/
def cfgWide : Config :=
  { change_threshold := 20, transition_threshold := 5, open_position := 10,
    closed_position := 90, state_timeout := 1000 }

/-- The state reached from a fresh start after feeding percentages 10 and 50
under `cfgWide` (both updates forced). -/
def wideSecondState : EngineState :=
  (engineStep cfgWide true 0 50 ((engineStep cfgWide true 0 10 (initState 0)).1)).1

/-- A settled state: the door was classified `open` at percentage 8. -/
def settledOpenState : EngineState :=
  { percent_value := some 8, door_state := DoorState.isOpen,
    next_action := NextAction.doClose, last_percent := some 8,
    state_stable_since := 0, active_mode := false, state_history := [8],
    available := true }

/-- A 5-by-2 test image whose pixel at row `y`, column `x` is `(y, x, 0)`,
so distinct coordinates carry distinct colors. -/
def imgStripes : Image :=
  { width := 5, height := 2, pix := fun y x => ((y : ℤ), (x : ℤ), 0) }

/-- A state whose stored prior percentage is exactly `0.0`. -/
def zeroLastState : EngineState :=
  { percent_value := some 50, door_state := DoorState.partiallyOpen,
    next_action := NextAction.doClose, last_percent := some 0,
    state_stable_since := 0, active_mode := false, state_history := [],
    available := true }

/-- A state whose most recent percentage is exactly `0.0` (so the rotation
inside the next update stores `0.0` into `last_percent`). -/
def zeroPercentState : EngineState :=
  { percent_value := some 0, door_state := DoorState.isOpen,
    next_action := NextAction.doClose, last_percent := some 0,
    state_stable_since := 0, active_mode := false, state_history := [],
    available := true }

/-- A state sitting exactly at the open boundary
`open_position + transition_threshold = 15` of the default configuration. -/
def boundaryState : EngineState :=
  { percent_value := some 15, door_state := DoorState.unknown,
    next_action := NextAction.unknown, last_percent := some 15,
    state_stable_since := 0, active_mode := false, state_history := [],
    available := true }

/-- The default configuration values from const.py. -/
def cfgDefault : Config :=
  { change_threshold := 10, transition_threshold := 5, open_position := 10,
    closed_position := 90, state_timeout := 5 }

/-- Simulation relation between runs of the engine that differ only in
`change_threshold`: the percentage bookkeeping and stability timestamp
coincide, `unknown`-ness of the label coincides, and the run with the larger
threshold is active only where the run with the smaller one is. -/
def EngineInv (s1 s2 : EngineState) : Prop :=
  s1.percent_value = s2.percent_value ∧
  s1.last_percent = s2.last_percent ∧
  s1.state_stable_since = s2.state_stable_since ∧
  (s1.door_state = DoorState.unknown ↔ s2.door_state = DoorState.unknown) ∧
  (s2.active_mode = true → s1.active_mode = true)

section EngineLemmas

theorem updateDoorState_percent (cfg : Config) (s : EngineState) :
    (updateDoorState cfg s).percent_value = s.percent_value := by
  cases hpv : s.percent_value with
  | none => simp [updateDoorState, hpv]
  | some pv =>
    simp only [updateDoorState, hpv]
    split_ifs <;> rfl

theorem updateDoorState_active (cfg : Config) (s : EngineState) :
    (updateDoorState cfg s).active_mode = s.active_mode := by
  cases hpv : s.percent_value with
  | none => simp [updateDoorState, hpv]
  | some pv =>
    simp only [updateDoorState, hpv]
    split_ifs <;> rfl

theorem updateDoorState_stable (cfg : Config) (s : EngineState) :
    (updateDoorState cfg s).state_stable_since = s.state_stable_since := by
  cases hpv : s.percent_value with
  | none => simp [updateDoorState, hpv]
  | some pv =>
    simp only [updateDoorState, hpv]
    split_ifs <;> rfl

theorem updateDoorState_history (cfg : Config) (s : EngineState) :
    (updateDoorState cfg s).state_history = s.state_history := by
  cases hpv : s.percent_value with
  | none => simp [updateDoorState, hpv]
  | some pv =>
    simp only [updateDoorState, hpv]
    split_ifs <;> rfl

theorem updateDoorState_last (cfg : Config) (s : EngineState) :
    (updateDoorState cfg s).last_percent =
      match s.percent_value with
      | none => s.last_percent
      | some pv => if s.last_percent = none then some pv else s.last_percent := by
  cases hpv : s.percent_value with
  | none => simp [updateDoorState, hpv]
  | some pv =>
    simp only [updateDoorState, hpv]
    split_ifs <;> rfl

theorem updateDoorState_door_ne_unknown (cfg : Config) (s : EngineState) (pv : ℚ)
    (h : s.percent_value = some pv) :
    (updateDoorState cfg s).door_state ≠ DoorState.unknown := by
  simp only [updateDoorState, h]
  split_ifs
  all_goals first
    | (simp; done)
    | (exfalso; push_neg at *; linarith)

theorem pushHistory_door (p : ℚ) (s : EngineState) :
    (pushHistory p s).door_state = s.door_state := rfl

theorem pushHistory_last (p : ℚ) (s : EngineState) :
    (pushHistory p s).last_percent = s.last_percent := rfl

theorem pushHistory_percent (p : ℚ) (s : EngineState) :
    (pushHistory p s).percent_value = s.percent_value := rfl

theorem pushHistory_stable (p : ℚ) (s : EngineState) :
    (pushHistory p s).state_stable_since = s.state_stable_since := rfl

theorem pushHistory_active (p : ℚ) (s : EngineState) :
    (pushHistory p s).active_mode = s.active_mode := rfl

theorem activityStep_door (cfg : Config) (p : ℚ) (s : EngineState) :
    (activityStep cfg p s).door_state = s.door_state := by
  cases h : s.last_percent with
  | none => simp [activityStep, h]
  | some lp =>
    simp only [activityStep, h]
    split_ifs <;> rfl

theorem activityStep_percent (cfg : Config) (p : ℚ) (s : EngineState) :
    (activityStep cfg p s).percent_value = s.percent_value := by
  cases h : s.last_percent with
  | none => simp [activityStep, h]
  | some lp =>
    simp only [activityStep, h]
    split_ifs <;> rfl

theorem activityStep_last (cfg : Config) (p : ℚ) (s : EngineState) :
    (activityStep cfg p s).last_percent = s.last_percent := by
  cases h : s.last_percent with
  | none => simp [activityStep, h]
  | some lp =>
    simp only [activityStep, h]
    split_ifs <;> simp [h]

theorem activityStep_stable (cfg : Config) (p : ℚ) (s : EngineState) :
    (activityStep cfg p s).state_stable_since = s.state_stable_since := by
  cases h : s.last_percent with
  | none => simp [activityStep, h]
  | some lp =>
    simp only [activityStep, h]
    split_ifs <;> rfl

theorem activityStep_active_some (cfg : Config) (p lp : ℚ) (s : EngineState)
    (h : s.last_percent = some lp) :
    (activityStep cfg p s).active_mode =
      decide (|p - lp| ≥ cfg.change_threshold) := by
  simp only [activityStep, h]
  split_ifs with h1 h2 <;> simp_all

theorem activityStep_active_none (cfg : Config) (p : ℚ) (s : EngineState)
    (h : s.last_percent = none) :
    (activityStep cfg p s).active_mode = s.active_mode := by
  simp [activityStep, h]

theorem preSteps_door (cfg : Config) (p : ℚ) (s : EngineState) :
    (rotateState p (activityStep cfg p (pushHistory p s))).door_state
      = s.door_state := by
  show (activityStep cfg p (pushHistory p s)).door_state = s.door_state
  rw [activityStep_door, pushHistory_door]

theorem engineStep_active (cfg : Config) (force : Bool) (now p : ℚ) (s : EngineState) :
    (engineStep cfg force now p s).1.active_mode =
      (activityStep cfg p (pushHistory p s)).active_mode := by
  simp only [engineStep]
  split_ifs <;> simp [updateDoorState_active, rotateState]

theorem stateChangedGate_forced (cfg : Config) (now p : ℚ) (s : EngineState) :
    stateChangedGate cfg true now p s = true := by
  simp [stateChangedGate]

theorem rotateState_percent (p : ℚ) (s : EngineState) :
    (rotateState p s).percent_value = some p := rfl

theorem updateDoorState_last_some (cfg : Config) (s : EngineState) (pv : ℚ)
    (h : s.percent_value = some pv) :
    (updateDoorState cfg s).last_percent =
      if s.last_percent = none then some pv else s.last_percent := by
  simp only [updateDoorState, h]
  split_ifs <;> simp_all

theorem preSteps_last (cfg : Config) (p : ℚ) (s : EngineState) :
    (rotateState p (activityStep cfg p (pushHistory p s))).last_percent
      = s.percent_value := by
  show (activityStep cfg p (pushHistory p s)).percent_value = s.percent_value
  rw [activityStep_percent, pushHistory_percent]

theorem preSteps_stable (cfg : Config) (p : ℚ) (s : EngineState) :
    (rotateState p (activityStep cfg p (pushHistory p s))).state_stable_since
      = s.state_stable_since := by
  show (activityStep cfg p (pushHistory p s)).state_stable_since
    = s.state_stable_since
  rw [activityStep_stable, pushHistory_stable]

theorem runEngine_length (cfg : Config) (s : EngineState)
    (L : List (Bool × ℚ × ℚ)) : (runEngine cfg s L).length = L.length := by
  induction L generalizing s with
  | nil => rfl
  | cons hd tl ih =>
    obtain ⟨f, now, p⟩ := hd
    simp [runEngine, ih]

theorem engineStep_inv (cfg1 cfg2 : Config)
    (htr : cfg1.transition_threshold = cfg2.transition_threshold)
    (hti : cfg1.state_timeout = cfg2.state_timeout)
    (hct : cfg1.change_threshold ≤ cfg2.change_threshold)
    (f : Bool) (now p : ℚ) (s1 s2 : EngineState) (h : EngineInv s1 s2) :
    EngineInv (engineStep cfg1 f now p s1).1 (engineStep cfg2 f now p s2).1 := by
  obtain ⟨hpv, hlp, hss, hdu, hact⟩ := h
  have hactT :
      (rotateState p (activityStep cfg2 p (pushHistory p s2))).active_mode = true →
      (rotateState p (activityStep cfg1 p (pushHistory p s1))).active_mode = true := by
    show (activityStep cfg2 p (pushHistory p s2)).active_mode = true →
      (activityStep cfg1 p (pushHistory p s1)).active_mode = true
    cases hsl : s1.last_percent with
    | none =>
      rw [activityStep_active_none cfg1 p _ ((pushHistory_last p s1).trans hsl),
          activityStep_active_none cfg2 p _ ((pushHistory_last p s2).trans (hlp ▸ hsl))]
      exact hact
    | some lp =>
      rw [activityStep_active_some cfg1 p lp _ ((pushHistory_last p s1).trans hsl),
          activityStep_active_some cfg2 p lp _ ((pushHistory_last p s2).trans (hlp ▸ hsl))]
      intro hd
      exact decide_eq_true (le_trans hct (of_decide_eq_true hd))
  have hgate :
      stateChangedGate cfg1 f now p (rotateState p (activityStep cfg1 p (pushHistory p s1))) =
      stateChangedGate cfg2 f now p (rotateState p (activityStep cfg2 p (pushHistory p s2))) := by
    simp only [stateChangedGate, rotateState_percent, preSteps_last, preSteps_stable,
      preSteps_door, hpv, hlp, hss, htr, hti]
    rw [decide_eq_decide.mpr hdu]
  simp only [engineStep]
  cases hg1 : stateChangedGate cfg1 f now p
      (rotateState p (activityStep cfg1 p (pushHistory p s1))) with
  | false =>
    have hg2 : stateChangedGate cfg2 f now p
        (rotateState p (activityStep cfg2 p (pushHistory p s2))) = false := by
      rw [← hgate]; exact hg1
    rw [hg2]
    simp only [Bool.false_eq_true, if_false]
    refine ⟨rfl, ?_, ?_, ?_, hactT⟩
    · rw [preSteps_last, preSteps_last, hpv]
    · rw [preSteps_stable, preSteps_stable, hss]
    · rw [preSteps_door, preSteps_door]; exact hdu
  | true =>
    have hg2 : stateChangedGate cfg2 f now p
        (rotateState p (activityStep cfg2 p (pushHistory p s2))) = true := by
      rw [← hgate]; exact hg1
    rw [hg2]
    rw [if_pos rfl, if_pos rfl]
    refine ⟨?_, ?_, rfl, ?_, ?_⟩
    · show (updateDoorState cfg1 _).percent_value = (updateDoorState cfg2 _).percent_value
      rw [updateDoorState_percent, updateDoorState_percent]
      rfl
    · show (updateDoorState cfg1 _).last_percent = (updateDoorState cfg2 _).last_percent
      rw [updateDoorState_last_some cfg1 _ p rfl, updateDoorState_last_some cfg2 _ p rfl,
          preSteps_last, preSteps_last, hpv]
    · exact iff_of_false (updateDoorState_door_ne_unknown cfg1 _ p rfl)
        (updateDoorState_door_ne_unknown cfg2 _ p rfl)
    · show (updateDoorState cfg2 _).active_mode = true →
        (updateDoorState cfg1 _).active_mode = true
      rw [updateDoorState_active, updateDoorState_active]
      exact hactT

theorem runEngine_inv (cfg1 cfg2 : Config)
    (htr : cfg1.transition_threshold = cfg2.transition_threshold)
    (hti : cfg1.state_timeout = cfg2.state_timeout)
    (hct : cfg1.change_threshold ≤ cfg2.change_threshold) :
    ∀ (L : List (Bool × ℚ × ℚ)) (s1 s2 : EngineState), EngineInv s1 s2 →
    ∀ (i : ℕ) (h1 : i < (runEngine cfg1 s1 L).length)
      (h2 : i < (runEngine cfg2 s2 L).length),
      EngineInv ((runEngine cfg1 s1 L).get ⟨i, h1⟩)
        ((runEngine cfg2 s2 L).get ⟨i, h2⟩) := by
  intro L
  induction L with
  | nil =>
    intro s1 s2 _ i h1 h2
    simp [runEngine] at h1
  | cons hd tl ih =>
    obtain ⟨f, now, p⟩ := hd
    intro s1 s2 h i h1 h2
    cases i with
    | zero =>
      exact engineStep_inv cfg1 cfg2 htr hti hct f now p s1 s2 h
    | succ j =>
      exact ih (engineStep cfg1 f now p s1).1 (engineStep cfg2 f now p s2).1
        (engineStep_inv cfg1 cfg2 htr hti hct f now p s1 s2 h) j
        (by simpa [runEngine] using h1) (by simpa [runEngine] using h2)

end EngineLemmas

/-- Claim C1 counterexample: with `open_position = 10`, `closed_position = 90`,
`transition_threshold = 5`, `change_threshold = 10`, the forced percent
sequence `[8, 50, 92]` does NOT produce the door states
`[Open, PartiallyOpen, Closed]`: the second step classifies as `Closing`,
because classification's `change = 50 - 8 = 42 ≥ 10` makes `moving` true. -/
theorem c1_counterexample :
    (runEngine cfgGolden (initState 0) [(true, 0, 8), (true, 0, 50), (true, 0, 92)]).map
        (fun s => s.door_state) ≠
      [DoorState.isOpen, DoorState.partiallyOpen, DoorState.closed] := by
  norm_num [runEngine, cfgGolden, engineStep, rotateState, activityStep, pushHistory,
    stateChangedGate, updateDoorState, pyOr, initState, Option.some_ne_none] <;> decide

/-- Claim C1 (amended): with that configuration the forced sequence
`[8, 50, 92]` yields door states `[Open, Closing, Closed]` with next actions
`[Close, Open, Open]`; `moving` is false only at the first step (the prior
percent is backfilled with the current one, so `change = 0`), while at the
second step `change = 42 ≥ 10` selects the `Closing` branch, so the rule-4
midpoint heuristic is never consulted. -/
theorem c1_amended_golden_path :
    (runEngine cfgGolden (initState 0) [(true, 0, 8), (true, 0, 50), (true, 0, 92)]).map
        (fun s => (s.door_state, s.next_action)) =
      [(DoorState.isOpen, NextAction.doClose), (DoorState.closing, NextAction.doOpen),
       (DoorState.closed, NextAction.doOpen)] := by
  norm_num [runEngine, cfgGolden, engineStep, rotateState, activityStep, pushHistory,
    stateChangedGate, updateDoorState, pyOr, initState, Option.some_ne_none]

/-- Claim C2 counterexample: activity detection does not compare against the
percent of the immediately preceding update.  After feeding `[10, 50]` with
`change_threshold = 20`, the state has `active_mode = true` and
`current_percent = 50`; the claim then requires the next update with percent
`50` (delta `0 < 20`) to clear `active_mode`, but the code leaves it set,
because it compares `50` against the stored `last_percent = 10`. -/
theorem c2_counterexample :
    wideSecondState.active_mode = true ∧
    wideSecondState.percent_value = some 50 ∧
    |(50 : ℚ) - 50| < cfgWide.change_threshold ∧
    (engineStep cfgWide true 0 50 wideSecondState).1.active_mode = true := by
  norm_num [wideSecondState, engineStep, rotateState, activityStep, pushHistory,
    stateChangedGate, updateDoorState, pyOr, initState, cfgWide, Option.some_ne_none] <;> decide

/-- Claim C2 (amended): in every update call where the stored
`last_percent` exists (the percent from the update before the previous one,
since the comparison happens before the rotation), activity detection sets
`active_mode` to `delta = |new_percent - last_percent| ≥ change_threshold`:
it activates on a large delta and clears on a small one, measured against
`last_percent`, not against the immediately preceding percent. -/
theorem c2_activity_uses_last_percent (cfg : Config) (force : Bool)
    (now p lp : ℚ) (s : EngineState) (h : s.last_percent = some lp) :
    (engineStep cfg force now p s).1.active_mode =
      decide (|p - lp| ≥ cfg.change_threshold) := by
  rw [engineStep_active]
  exact activityStep_active_some cfg p lp (pushHistory p s)
    ((pushHistory_last p s).trans h)

/-- Witness for the amended C2 at a concrete state. -/
theorem c2_witness :
    (engineStep cfgGolden false 0 50 settledOpenState).1.active_mode =
      decide (|(50 : ℚ) - 8| ≥ cfgGolden.change_threshold) :=
  c2_activity_uses_last_percent cfgGolden false 0 50 8 settledOpenState rfl

/-- Claim C3 counterexample: a forced recomputation that reaffirms the same
label is not silent.  `settledOpenState` is classified `Open` and a forced
update at percent `8` classifies `Open` again, yet the event fires (the code
fires on `force_update or self._door_state != old_state`). -/
theorem c3_counterexample :
    (engineStep cfgGolden true 1 8 settledOpenState).1.door_state =
      settledOpenState.door_state ∧
    (engineStep cfgGolden true 1 8 settledOpenState).2 = true := by
  norm_num [settledOpenState, engineStep, rotateState, activityStep, pushHistory,
    stateChangedGate, updateDoorState, pyOr, cfgGolden, Option.some_ne_none]

/-- Claim C3 (amended): a non-forced update emits the state-transition event
only when the door-state label after classification differs from the label
before it, but a forced update always emits the event, even when the
recomputed label is unchanged. -/
theorem c3_amended_events (cfg : Config) (now p : ℚ) (s : EngineState) :
    ((engineStep cfg false now p s).2 = true →
      (engineStep cfg false now p s).1.door_state ≠ s.door_state) ∧
    (engineStep cfg true now p s).2 = true := by
  constructor
  · intro h
    have hdoor := preSteps_door cfg p s
    simp only [engineStep] at h ⊢
    by_cases hg :
        stateChangedGate cfg false now p
          (rotateState p (activityStep cfg p (pushHistory p s))) = true
    · rw [if_pos hg] at h ⊢
      simp only [Bool.false_or, decide_eq_true_eq] at h
      rw [← hdoor]
      exact h
    · rw [if_neg hg] at h
      simp at h
  · simp only [engineStep, stateChangedGate_forced, if_pos, Bool.true_or]

/-- Witness for the amended C3 at a concrete state: an unforced update from
`Open` at percent 50 fires (label becomes `Closing`), and a forced update
always fires. -/
theorem c3_witness :
    ((engineStep cfgGolden false 0 50 settledOpenState).1.door_state ≠
      settledOpenState.door_state) ∧
    (engineStep cfgGolden true 0 50 settledOpenState).2 = true :=
  ⟨(c3_amended_events cfgGolden 0 50 settledOpenState).1
      (by norm_num [settledOpenState, engineStep, rotateState, activityStep, pushHistory,
        stateChangedGate, updateDoorState, pyOr, cfgGolden, Option.some_ne_none] <;> decide),
   (c3_amended_events cfgGolden 0 50 settledOpenState).2⟩

/-- Claim C7: for the same input sequence and the same initial state, a run
with a larger `change_threshold` is in active mode at a given step only if
the run with the smaller threshold is too — raising the threshold can only
delay or prevent activation, never accelerate it. -/
theorem c7_change_threshold_monotone (cfg1 cfg2 : Config)
    (ho : cfg1.open_position = cfg2.open_position)
    (hcl : cfg1.closed_position = cfg2.closed_position)
    (htr : cfg1.transition_threshold = cfg2.transition_threshold)
    (hti : cfg1.state_timeout = cfg2.state_timeout)
    (hct : cfg1.change_threshold ≤ cfg2.change_threshold)
    (L : List (Bool × ℚ × ℚ)) (s0 : EngineState) (i : ℕ)
    (h1 : i < (runEngine cfg1 s0 L).length)
    (h2 : i < (runEngine cfg2 s0 L).length) :
    ((runEngine cfg2 s0 L).get ⟨i, h2⟩).active_mode = true →
    ((runEngine cfg1 s0 L).get ⟨i, h1⟩).active_mode = true :=
  (runEngine_inv cfg1 cfg2 htr hti hct L s0 s0
    ⟨rfl, rfl, rfl, Iff.rfl, id⟩ i h1 h2).2.2.2.2

/-- Witness for C7: thresholds 10 and 20 (other settings equal), inputs
`[10, 50]`; the wide run is active after the second step, so the theorem
forces the narrow run to be active there too. -/
theorem c7_witness :
    ((runEngine cfgGolden (initState 0) [(true, 0, 10), (true, 0, 50)]).get
      ⟨1, by rw [runEngine_length]; norm_num⟩).active_mode = true :=
  c7_change_threshold_monotone cfgGolden cfgWide rfl rfl rfl rfl
    (by norm_num [cfgGolden, cfgWide]) [(true, 0, 10), (true, 0, 50)]
    (initState 0) 1 (by rw [runEngine_length]; norm_num)
    (by rw [runEngine_length]; norm_num)
    (by norm_num [runEngine, cfgWide, engineStep, rotateState, activityStep,
      pushHistory, stateChangedGate, updateDoorState, pyOr, initState,
      Option.some_ne_none])

/-- Claim C6: when sampling yields zero pixels the update cycle is skipped:
no event fires and every `EngineState` field (door state, next action,
current and prior percent, stability timestamp, active mode, history) keeps
its previous value. -/
theorem c6_empty_sample_preserves_state (cfg : Config) (force : Bool) (now : ℚ)
    (minC maxC : Color) (s : EngineState) :
    (asyncUpdate cfg force now [] minC maxC s).1.door_state = s.door_state ∧
    (asyncUpdate cfg force now [] minC maxC s).1.next_action = s.next_action ∧
    (asyncUpdate cfg force now [] minC maxC s).1.percent_value = s.percent_value ∧
    (asyncUpdate cfg force now [] minC maxC s).1.last_percent = s.last_percent ∧
    (asyncUpdate cfg force now [] minC maxC s).1.state_stable_since =
      s.state_stable_since ∧
    (asyncUpdate cfg force now [] minC maxC s).1.active_mode = s.active_mode ∧
    (asyncUpdate cfg force now [] minC maxC s).1.state_history = s.state_history ∧
    (asyncUpdate cfg force now [] minC maxC s).2 = false := by
  simp [asyncUpdate]

/-- Claim C8: a percentage exactly equal to
`open_position + transition_threshold` classifies as `Open` with next action
`Close` — the boundary comparison is inclusive. -/
theorem c8_open_boundary_inclusive (cfg : Config) (s : EngineState)
    (h : s.percent_value = some (cfg.open_position + cfg.transition_threshold)) :
    (updateDoorState cfg s).door_state = DoorState.isOpen ∧
    (updateDoorState cfg s).next_action = NextAction.doClose := by
  simp [updateDoorState, h]

/-- Witness for C8: percent 15 with the default thresholds (10 + 5). -/
theorem c8_witness :
    (updateDoorState cfgDefault boundaryState).door_state = DoorState.isOpen ∧
    (updateDoorState cfgDefault boundaryState).next_action = NextAction.doClose :=
  c8_open_boundary_inclusive cfgDefault boundaryState (by norm_num [boundaryState, cfgDefault])

/-- Claim C9: if some channel of the color range has `min > max`, no pixel
is in range (a pixel is in range only if every channel lies within the
inclusive bounds), so the match percentage of any non-empty sample is 0. -/
theorem c9_inverted_range_matches_nothing (pixels : List Pixel) (minC maxC : Color)
    (hne : pixels ≠ [])
    (h : maxC.1 < minC.1 ∨ maxC.2.1 < minC.2.1 ∨ maxC.2.2 < minC.2.2) :
    (∀ p ∈ pixels, pixInRange p minC maxC = false) ∧
    matchPercent pixels minC maxC = 0 := by
  have hfalse : ∀ p : Pixel, pixInRange p minC maxC = false := by
    intro p
    simp only [pixInRange, decide_eq_false_iff_not]
    rintro ⟨h1, h2, h3, h4, h5, h6⟩
    rcases h with h | h | h <;> linarith
  have hcount : pixels.countP (fun p => pixInRange p minC maxC) = 0 :=
    List.countP_eq_zero.mpr (fun a _ => by simp [hfalse a])
  exact ⟨fun p _ => hfalse p, by simp [matchPercent, hcount]⟩

/-- Witness for C9: one pixel, red channel range inverted (min 5 > max 2). -/
theorem c9_witness :
    (∀ p ∈ [(((1 : ℤ), (2 : ℤ), (3 : ℤ)) : Pixel)],
      pixInRange p (((5 : ℤ), (0 : ℤ), (0 : ℤ)) : Color)
        (((2 : ℤ), (255 : ℤ), (255 : ℤ)) : Color) = false) ∧
    matchPercent [(((1 : ℤ), (2 : ℤ), (3 : ℤ)) : Pixel)]
      (((5 : ℤ), (0 : ℤ), (0 : ℤ)) : Color)
      (((2 : ℤ), (255 : ℤ), (255 : ℤ)) : Color) = 0 :=
  c9_inverted_range_matches_nothing _ _ _ (by simp) (Or.inl (by norm_num))

/-- Claim C10: a stored prior percent of exactly `0.0` is treated as absent
(Python `or` falsiness): with positive thresholds, classification's change
computation falls back to the current percent (change 0), so the result is
never `Opening` or `Closing`; and in the non-forced, non-unknown,
non-timed-out update the transition-threshold gate is never satisfied, so
the discrete state is not recomputed. -/
theorem c10_zero_prior_percent_is_absent (cfg : Config)
    (hct : 0 < cfg.change_threshold) (htt : 0 < cfg.transition_threshold) :
    (∀ (s : EngineState) (pv : ℚ), s.last_percent = some 0 →
      s.percent_value = some pv →
      (updateDoorState cfg s).door_state ≠ DoorState.opening ∧
      (updateDoorState cfg s).door_state ≠ DoorState.closing) ∧
    (∀ (s : EngineState) (p now : ℚ), s.percent_value = some 0 →
      s.door_state ≠ DoorState.unknown →
      now - s.state_stable_since ≤ cfg.state_timeout →
      (engineStep cfg false now p s).1.door_state = s.door_state ∧
      (engineStep cfg false now p s).1.state_stable_since =
        s.state_stable_since) := by
  constructor
  · intro s pv hlp hpv
    simp only [updateDoorState, hpv, hlp]
    norm_num [pyOr, Option.some_ne_none]
    split_ifs <;> first | (constructor <;> (simp; done)) | (exfalso; linarith)
  · intro s p now hpv hdoor htime
    have hlast :
        (rotateState p (activityStep cfg p (pushHistory p s))).last_percent =
          some 0 := by
      show (activityStep cfg p (pushHistory p s)).percent_value = some 0
      rw [activityStep_percent, pushHistory_percent, hpv]
    have hstable :
        (rotateState p (activityStep cfg p (pushHistory p s))).state_stable_since =
          s.state_stable_since := by
      show (activityStep cfg p (pushHistory p s)).state_stable_since =
        s.state_stable_since
      rw [activityStep_stable, pushHistory_stable]
    have hg : stateChangedGate cfg false now p
        (rotateState p (activityStep cfg p (pushHistory p s))) = false := by
      simp only [stateChangedGate, hlast, hstable, preSteps_door]
      rw [if_neg]
      · simp [pyOr]
        constructor
        · linarith
        · linarith
      · simp [hdoor, rotateState]
    simp only [engineStep, hg]
    norm_num
    exact ⟨preSteps_door cfg p s, hstable⟩

/-- Witness for C10 with the default thresholds: prior percent `0.0` at
current percent 50 does not classify as moving, and an unforced update on a
state whose rotated prior percent will be `0.0` leaves the label and the
stability timestamp alone. -/
theorem c10_witness :
    ((updateDoorState cfgDefault zeroLastState).door_state ≠ DoorState.opening ∧
     (updateDoorState cfgDefault zeroLastState).door_state ≠ DoorState.closing) ∧
    ((engineStep cfgDefault false 3 42 zeroPercentState).1.door_state =
      zeroPercentState.door_state ∧
     (engineStep cfgDefault false 3 42 zeroPercentState).1.state_stable_since =
      zeroPercentState.state_stable_since) :=
  ⟨(c10_zero_prior_percent_is_absent cfgDefault (by norm_num [cfgDefault])
      (by norm_num [cfgDefault])).1 zeroLastState 50 rfl rfl,
   (c10_zero_prior_percent_is_absent cfgDefault (by norm_num [cfgDefault])
      (by norm_num [cfgDefault])).2 zeroPercentState 42 3 rfl (by decide)
      (by norm_num [zeroPercentState, cfgDefault])⟩

/-- Bounds on the minor-axis step count of the Bresenham error recurrence:
at a loop head with `t` completed iterations out of `a` on the major axis
and `k` minor-axis steps, the doubled error term `e` stays in `[0, 2a)`,
which pins `k` into `[0, b]`. -/
theorem bresK_bounds (a b t k e : ℤ) (ha : 1 ≤ a) (hb : 0 ≤ b)
    (ht0 : 0 ≤ t) (ht1 : t ≤ a)
    (he : e = a - 2 * b * t + 2 * a * k) (he0 : 0 ≤ e) (helt : e < 2 * a) :
    0 ≤ k ∧ k ≤ b := by
  constructor
  · by_contra hk
    push_neg at hk
    have hk1 : k ≤ -1 := by omega
    have h1 : 2 * a * k ≤ 2 * a * (-1) :=
      mul_le_mul_of_nonneg_left hk1 (by linarith)
    have h2 : 0 ≤ 2 * b * t := mul_nonneg (by linarith) ht0
    nlinarith
  · by_contra hk
    push_neg at hk
    have hk1 : b + 1 ≤ k := by omega
    have h1 : 2 * a * (b + 1) ≤ 2 * a * k :=
      mul_le_mul_of_nonneg_left hk1 (by linarith)
    have h2 : 2 * b * t ≤ 2 * b * a := mul_le_mul_of_nonneg_left ht1 (by linarith)
    nlinarith

theorem lineLoopX_spec (img : Image) (w h x1 y0 dx dy sx sy : ℤ)
    (hsx : sx = 1 ∨ sx = -1) (hsy : sy = 1 ∨ sy = -1)
    (hdy0 : 0 ≤ dy) (hdxy : dy < dx)
    (hx1a : 0 ≤ x1) (hx1b : x1 < w)
    (hx0a : 0 ≤ x1 - sx * dx) (hx0b : x1 - sx * dx < w)
    (hy0a : 0 ≤ y0) (hy0b : y0 < h)
    (hy1a : 0 ≤ y0 + sy * dy) (hy1b : y0 + sy * dy < h) :
    ∀ (n : ℕ) (x y e k : ℤ),
      x = x1 - sx * (n : ℤ) → (n : ℤ) ≤ dx →
      y = y0 + sy * k →
      e = dx - 2 * dy * (dx - (n : ℤ)) + 2 * dx * k →
      0 ≤ e → e < 2 * dx →
      (lineLoopX img w h x1 dx dy sx sy n x y e).1.length = n ∧
      (lineLoopX img w h x1 dx dy sx sy n x y e).2.1 = x1 ∧
      ∃ k2 : ℤ, (lineLoopX img w h x1 dx dy sx sy n x y e).2.2 = y0 + sy * k2 ∧
        0 ≤ k2 ∧ k2 ≤ dy := by
  intro n
  induction n with
  | zero =>
    intro x y e k hx hn hy he he0 helt
    push_cast at hx he
    obtain ⟨hk0, hkd⟩ := bresK_bounds dx dy dx k e (by linarith) hdy0
      (by linarith) (le_refl dx) (by linarith [he]) he0 helt
    refine ⟨?_, ?_, ⟨k, ?_, hk0, hkd⟩⟩
    · simp [lineLoopX]
    · simp only [lineLoopX]
      linarith [hx]
    · simp only [lineLoopX]
      exact hy
  | succ n ih =>
    intro x y e k hx hn hy he he0 helt
    subst hx; subst hy; subst he
    push_cast at hn he0 helt ⊢
    have hn0 : (0:ℤ) ≤ (n:ℤ) := Int.natCast_nonneg n
    obtain ⟨hk0, hkd⟩ := bresK_bounds dx dy (dx - ((n:ℤ)+1)) k _ (by linarith) hdy0
      (by linarith) (by linarith) rfl he0 helt
    have hxne : ¬ (x1 - sx * ((n:ℤ)+1) = x1) := by
      rcases hsx with rfl | rfl <;> intro hcon <;> linarith
    have hguard : 0 ≤ y0 + sy * k ∧ y0 + sy * k < h ∧
        0 ≤ x1 - sx * ((n:ℤ)+1) ∧ x1 - sx * ((n:ℤ)+1) < w := by
      refine ⟨?_, ?_, ?_, ?_⟩
      · rcases hsy with rfl | rfl <;> linarith
      · rcases hsy with rfl | rfl <;> linarith
      · rcases hsx with rfl | rfl <;> linarith
      · rcases hsx with rfl | rfl <;> linarith
    simp only [lineLoopX, if_neg hxne, if_pos hguard]
    by_cases he2 : dx - 2 * dy * (dx - ((n:ℤ)+1)) + 2 * dx * k - 2 * dy < 0
    · rw [if_pos he2, if_pos he2]
      obtain ⟨ihl, ihx, k2, ihy, h20, h2d⟩ :=
        ih (x1 - sx * ((n:ℤ)+1) + sx) (y0 + sy * k + sy)
          (dx - 2 * dy * (dx - ((n:ℤ)+1)) + 2 * dx * k - 2 * dy + 2 * dx) (k+1)
          (by ring) (by linarith) (by ring) (by ring)
          (by linarith) (by linarith)
      refine ⟨?_, ihx, ⟨k2, ihy, h20, h2d⟩⟩
      simp only [List.singleton_append, List.length_cons, ihl]
    · rw [if_neg he2, if_neg he2]
      push_neg at he2
      obtain ⟨ihl, ihx, k2, ihy, h20, h2d⟩ :=
        ih (x1 - sx * ((n:ℤ)+1) + sx) (y0 + sy * k)
          (dx - 2 * dy * (dx - ((n:ℤ)+1)) + 2 * dx * k - 2 * dy) k
          (by ring) (by linarith) rfl (by ring)
          (by linarith) (by linarith)
      refine ⟨?_, ihx, ⟨k2, ihy, h20, h2d⟩⟩
      simp only [List.singleton_append, List.length_cons, ihl]

theorem lineLoopY_spec (img : Image) (w h y1 x0 dx dy sx sy : ℤ)
    (hsx : sx = 1 ∨ sx = -1) (hsy : sy = 1 ∨ sy = -1)
    (hdx0 : 0 ≤ dx) (hdxy : dx ≤ dy)
    (hy1a : 0 ≤ y1) (hy1b : y1 < h)
    (hy0a : 0 ≤ y1 - sy * dy) (hy0b : y1 - sy * dy < h)
    (hx0a : 0 ≤ x0) (hx0b : x0 < w)
    (hx1a : 0 ≤ x0 + sx * dx) (hx1b : x0 + sx * dx < w) :
    ∀ (n : ℕ) (x y e k : ℤ),
      y = y1 - sy * (n : ℤ) → (n : ℤ) ≤ dy →
      x = x0 + sx * k →
      e = dy - 2 * dx * (dy - (n : ℤ)) + 2 * dy * k →
      0 ≤ e → e < 2 * dy →
      (lineLoopY img w h y1 dx dy sx sy n x y e).1.length = n ∧
      (lineLoopY img w h y1 dx dy sx sy n x y e).2.2 = y1 ∧
      ∃ k2 : ℤ, (lineLoopY img w h y1 dx dy sx sy n x y e).2.1 = x0 + sx * k2 ∧
        0 ≤ k2 ∧ k2 ≤ dx := by
  intro n
  induction n with
  | zero =>
    intro x y e k hy hn hx he he0 helt
    push_cast at hy he
    have hdy1 : 1 ≤ dy := by
      rcases lt_or_le 0 dy with hpos | hneg
      · omega
      · exfalso
        have : dy = 0 := le_antisymm hneg (by linarith)
        rw [this] at helt
        omega
    obtain ⟨hk0, hkd⟩ := bresK_bounds dy dx dy k e hdy1 hdx0
      (by linarith) (le_refl dy) (by linarith [he]) he0 helt
    refine ⟨?_, ?_, ⟨k, ?_, hk0, hkd⟩⟩
    · simp [lineLoopY]
    · simp only [lineLoopY]
      linarith [hy]
    · simp only [lineLoopY]
      exact hx
  | succ n ih =>
    intro x y e k hy hn hx he he0 helt
    subst hy; subst hx; subst he
    push_cast at hn he0 helt ⊢
    have hn0 : (0:ℤ) ≤ (n:ℤ) := Int.natCast_nonneg n
    have hdy1 : 1 ≤ dy := by omega
    obtain ⟨hk0, hkd⟩ := bresK_bounds dy dx (dy - ((n:ℤ)+1)) k _ hdy1 hdx0
      (by linarith) (by linarith) rfl he0 helt
    have hyne : ¬ (y1 - sy * ((n:ℤ)+1) = y1) := by
      rcases hsy with rfl | rfl <;> intro hcon <;> linarith
    have hguard : 0 ≤ y1 - sy * ((n:ℤ)+1) ∧ y1 - sy * ((n:ℤ)+1) < h ∧
        0 ≤ x0 + sx * k ∧ x0 + sx * k < w := by
      refine ⟨?_, ?_, ?_, ?_⟩
      · rcases hsy with rfl | rfl <;> linarith
      · rcases hsy with rfl | rfl <;> linarith
      · rcases hsx with rfl | rfl <;> linarith
      · rcases hsx with rfl | rfl <;> linarith
    simp only [lineLoopY, if_neg hyne, if_pos hguard]
    by_cases he2 : dy - 2 * dx * (dy - ((n:ℤ)+1)) + 2 * dy * k - 2 * dx < 0
    · rw [if_pos he2, if_pos he2]
      obtain ⟨ihl, ihy, k2, ihx, h20, h2d⟩ :=
        ih (x0 + sx * k + sx) (y1 - sy * ((n:ℤ)+1) + sy)
          (dy - 2 * dx * (dy - ((n:ℤ)+1)) + 2 * dy * k - 2 * dx + 2 * dy) (k+1)
          (by ring) (by linarith) (by ring) (by ring)
          (by linarith) (by linarith)
      refine ⟨?_, ihy, ⟨k2, ihx, h20, h2d⟩⟩
      simp only [List.singleton_append, List.length_cons, ihl]
    · rw [if_neg he2, if_neg he2]
      push_neg at he2
      obtain ⟨ihl, ihy, k2, ihx, h20, h2d⟩ :=
        ih (x0 + sx * k) (y1 - sy * ((n:ℤ)+1) + sy)
          (dy - 2 * dx * (dy - ((n:ℤ)+1)) + 2 * dy * k - 2 * dx) k
          (by ring) (by linarith) rfl (by ring)
          (by linarith) (by linarith)
      refine ⟨?_, ihy, ⟨k2, ihx, h20, h2d⟩⟩
      simp only [List.singleton_append, List.length_cons, ihl]

theorem getLinePixels_length (img : Image) (a b : ℤ × ℤ)
    (hw : 1 ≤ img.width) (hh : 1 ≤ img.height) :
    (getLinePixels img a b).length =
      (max |max 0 (min b.1 ((img.width : ℤ) - 1)) - max 0 (min a.1 ((img.width : ℤ) - 1))|
           |max 0 (min b.2 ((img.height : ℤ) - 1)) - max 0 (min a.2 ((img.height : ℤ) - 1))|).toNat
        + 1 := by
  have hcond : ¬ (img.height = 0 ∨ img.width = 0) := by omega
  simp only [getLinePixels]
  rw [if_neg hcond]
  set w : ℤ := (img.width : ℤ) with hwdef
  set h : ℤ := (img.height : ℤ) with hhdef
  set x0 := max 0 (min a.1 (w - 1)) with hx0def
  set y0 := max 0 (min a.2 (h - 1)) with hy0def
  set x1 := max 0 (min b.1 (w - 1)) with hx1def
  set y1 := max 0 (min b.2 (h - 1)) with hy1def
  set dx := |x1 - x0| with hdxdef
  set dy := |y1 - y0| with hdydef
  set sx : ℤ := if x0 > x1 then -1 else 1 with hsxdef
  set sy : ℤ := if y0 > y1 then -1 else 1 with hsydef
  have hw1 : (1:ℤ) ≤ w := by rw [hwdef]; exact_mod_cast hw
  have hh1 : (1:ℤ) ≤ h := by rw [hhdef]; exact_mod_cast hh
  have hx0a : 0 ≤ x0 := le_max_left 0 _
  have hx0b : x0 < w := by
    have : x0 ≤ w - 1 := max_le (by linarith) (min_le_right _ _)
    linarith
  have hy0a : 0 ≤ y0 := le_max_left 0 _
  have hy0b : y0 < h := by
    have : y0 ≤ h - 1 := max_le (by linarith) (min_le_right _ _)
    linarith
  have hx1a : 0 ≤ x1 := le_max_left 0 _
  have hx1b : x1 < w := by
    have : x1 ≤ w - 1 := max_le (by linarith) (min_le_right _ _)
    linarith
  have hy1a : 0 ≤ y1 := le_max_left 0 _
  have hy1b : y1 < h := by
    have : y1 ≤ h - 1 := max_le (by linarith) (min_le_right _ _)
    linarith
  have hsx1 : sx = 1 ∨ sx = -1 := by
    rw [hsxdef]
    split_ifs <;> simp
  have hsy1 : sy = 1 ∨ sy = -1 := by
    rw [hsydef]
    split_ifs <;> simp
  have hdx0 : 0 ≤ dx := abs_nonneg _
  have hdy0 : 0 ≤ dy := abs_nonneg _
  have hsxd : x1 - sx * dx = x0 := by
    rw [hsxdef, hdxdef]
    by_cases hgt : x0 > x1
    · rw [if_pos hgt, abs_of_nonpos (by linarith)]
      ring
    · rw [if_neg hgt, abs_of_nonneg (by push_neg at hgt; linarith)]
      ring
  have hsyd : y0 + sy * dy = y1 := by
    rw [hsydef, hdydef]
    by_cases hgt : y0 > y1
    · rw [if_pos hgt, abs_of_nonpos (by linarith)]
      ring
    · rw [if_neg hgt, abs_of_nonneg (by push_neg at hgt; linarith)]
      ring
  by_cases hmaj : dx > dy
  · rw [if_pos hmaj]
    obtain ⟨hlen, hx1e, k2, hy2e, hk20, hk2d⟩ :=
      lineLoopX_spec img w h x1 y0 dx dy sx sy hsx1 hsy1 hdy0 hmaj hx1a hx1b
        (by rw [hsxd]; exact hx0a) (by rw [hsxd]; exact hx0b)
        hy0a hy0b (by rw [hsyd]; exact hy1a) (by rw [hsyd]; exact hy1b)
        dx.toNat x0 y0 dx 0
        (by rw [Int.toNat_of_nonneg hdx0, hsxd])
        (by rw [Int.toNat_of_nonneg hdx0])
        (by ring) (by rw [Int.toNat_of_nonneg hdx0]; ring) hdx0 (by linarith)
    rw [List.length_append, hlen, hx1e, hy2e]
    have hg : 0 ≤ y0 + sy * k2 ∧ y0 + sy * k2 < h ∧ 0 ≤ x1 ∧ x1 < w := by
      refine ⟨?_, ?_, hx1a, hx1b⟩
      · rcases hsy1 with hs | hs <;> rw [hs] at hsyd ⊢ <;> linarith
      · rcases hsy1 with hs | hs <;> rw [hs] at hsyd ⊢ <;> linarith
    rw [if_pos hg, List.length_singleton, max_eq_left (le_of_lt hmaj)]
  · rw [if_neg hmaj]
    push_neg at hmaj
    rcases eq_or_lt_of_le hdy0 with hdz | hdy1
    · have hdz' : dy = 0 := hdz.symm
      have hdxz : dx = 0 := le_antisymm (by linarith) hdx0
      rw [hdz', hdxz]
      simp only [Int.toNat_zero, lineLoopY]
      rw [if_pos (⟨hy0a, hy0b, hx0a, hx0b⟩ :
        0 ≤ y0 ∧ y0 < h ∧ 0 ≤ x0 ∧ x0 < w)]
      simp
    · have hsyd2 : y1 - sy * dy = y0 := by linarith
      have hsxd2 : x0 + sx * dx = x1 := by linarith
      obtain ⟨hlen, hy1e, k2, hx2e, hk20, hk2d⟩ :=
        lineLoopY_spec img w h y1 x0 dx dy sx sy hsx1 hsy1 hdx0 hmaj
          hy1a hy1b (by rw [hsyd2]; exact hy0a) (by rw [hsyd2]; exact hy0b)
          hx0a hx0b (by rw [hsxd2]; exact hx1a) (by rw [hsxd2]; exact hx1b)
          dy.toNat x0 y0 dy 0
          (by rw [Int.toNat_of_nonneg hdy0, hsyd2])
          (by rw [Int.toNat_of_nonneg hdy0])
          (by ring) (by rw [Int.toNat_of_nonneg hdy0]; ring) hdy0 (by linarith)
      rw [List.length_append, hlen, hy1e, hx2e]
      have hg : 0 ≤ y1 ∧ y1 < h ∧ 0 ≤ x0 + sx * k2 ∧ x0 + sx * k2 < w := by
        refine ⟨hy1a, hy1b, ?_, ?_⟩
        · rcases hsx1 with hs | hs <;> rw [hs] at hsxd2 ⊢ <;> linarith
        · rcases hsx1 with hs | hs <;> rw [hs] at hsxd2 ⊢ <;> linarith
      rw [if_pos hg, List.length_singleton, max_eq_right hmaj]

/-- Claim C4: for an image with positive dimensions and two distinct points
inside its bounds, `_get_line_pixels` returns a non-empty sequence of
exactly `max(|x1 - x0|, |y1 - y0|) + 1` pixels. -/
theorem c4_sample_length (img : Image) (a b : ℤ × ℤ)
    (hw : 1 ≤ img.width) (hh : 1 ≤ img.height)
    (ha1 : 0 ≤ a.1) (ha1b : a.1 < (img.width : ℤ))
    (ha2 : 0 ≤ a.2) (ha2b : a.2 < (img.height : ℤ))
    (hb1 : 0 ≤ b.1) (hb1b : b.1 < (img.width : ℤ))
    (hb2 : 0 ≤ b.2) (hb2b : b.2 < (img.height : ℤ))
    (hne : a ≠ b) :
    getLinePixels img a b ≠ [] ∧
    (getLinePixels img a b).length = (max |b.1 - a.1| |b.2 - a.2|).toNat + 1 := by
  have hca1 : max 0 (min a.1 ((img.width : ℤ) - 1)) = a.1 := by
    rw [min_eq_left (by linarith), max_eq_right ha1]
  have hca2 : max 0 (min a.2 ((img.height : ℤ) - 1)) = a.2 := by
    rw [min_eq_left (by linarith), max_eq_right ha2]
  have hcb1 : max 0 (min b.1 ((img.width : ℤ) - 1)) = b.1 := by
    rw [min_eq_left (by linarith), max_eq_right hb1]
  have hcb2 : max 0 (min b.2 ((img.height : ℤ) - 1)) = b.2 := by
    rw [min_eq_left (by linarith), max_eq_right hb2]
  have hlen := getLinePixels_length img a b hw hh
  rw [hca1, hca2, hcb1, hcb2] at hlen
  refine ⟨?_, hlen⟩
  intro hnil
  rw [hnil] at hlen
  simp at hlen

/-- Witness for C4: the 5-by-2 test image with endpoints (0,0) and (4,1)
yields `max(4, 1) + 1 = 5` pixels. -/
theorem c4_witness :
    getLinePixels imgStripes (0, 0) (4, 1) ≠ [] ∧
    (getLinePixels imgStripes (0, 0) (4, 1)).length =
      (max |(4 : ℤ) - 0| |(1 : ℤ) - 0|).toNat + 1 :=
  c4_sample_length imgStripes (0, 0) (4, 1)
    (by norm_num [imgStripes]) (by norm_num [imgStripes])
    (by norm_num) (by norm_num [imgStripes]) (by norm_num) (by norm_num [imgStripes])
    (by norm_num) (by norm_num [imgStripes]) (by norm_num) (by norm_num [imgStripes])
    (by decide)

/-- Claim C5 counterexample: the Bresenham traversal is not symmetric under
endpoint swap.  On the 5-by-2 image, the line (0,0)→(4,1) samples rows
`[0,0,0,1,1]`, while (4,1)→(0,0) reversed samples rows `[0,0,1,1,1]`: the
pixel at (2,0) is traded for the pixel at (2,1), so neither the reversed
sequence nor even the multiset of pixels agrees. -/
theorem c5_counterexample :
    getLinePixels imgStripes (0, 0) (4, 1) ≠
      (getLinePixels imgStripes (4, 1) (0, 0)).reverse ∧
    (getLinePixels imgStripes (0, 0) (4, 1) : Multiset Pixel) ≠
      (getLinePixels imgStripes (4, 1) (0, 0) : Multiset Pixel) := by
  constructor
  · decide
  · decide

/-- Claim C5 (amended): swapping the endpoints preserves the length of the
sampled sequence (both directions traverse the same clamped major-axis
distance), though not the sequence itself nor its multiset of pixels. -/
theorem c5_amended_swap_same_length (img : Image) (a b : ℤ × ℤ) :
    (getLinePixels img a b).length = (getLinePixels img b a).length := by
  by_cases hz : img.height = 0 ∨ img.width = 0
  · rw [getLinePixels, getLinePixels, if_pos hz, if_pos hz]
  · push_neg at hz
    have hw : 1 ≤ img.width := by omega
    have hh : 1 ≤ img.height := by omega
    rw [getLinePixels_length img a b hw hh, getLinePixels_length img b a hw hh,
      abs_sub_comm (max 0 (min b.1 ((img.width : ℤ) - 1)))
        (max 0 (min a.1 ((img.width : ℤ) - 1))),
      abs_sub_comm (max 0 (min b.2 ((img.height : ℤ) - 1)))
        (max 0 (min a.2 ((img.height : ℤ) - 1)))]
